import Mathlib

/-!
Verification of `sreb_scraper.py`, a scraper pipeline:
static fetch → parse entries → fallback rendered fetch → deduplicate → upload.

Python strings are modelled as `List Char` (`PyStr`), ASCII-faithfully; the
string operations used by the source (`strip`, `splitlines`, `replace`,
substring containment `in`, `lower`) are implemented below with Python
semantics.  The HTML soup is modelled as a tree of nodes (`Node`); the
BeautifulSoup operations the source uses (`select` over mailto anchors,
`find_parent`, `get_text(" \n", strip=True)`) are implemented over that tree.
Side-effecting components (`append_to_sheet`, `fetch_with_playwright`, `main`)
are modelled as trace-producing functions.
-/

set_option maxRecDepth 4000

namespace Sreb

/-- Python strings, modelled as character lists. -/
abbrev PyStr := List Char

/-- Shorthand to write a `PyStr` from a Lean string literal. -/
def pys (s : String) : PyStr := s.toList

/-- Python `str.isspace` characters in the ASCII range (used by `strip()` and
by the regex class `\s`). -/
def isPySpace (c : Char) : Bool :=
  c == ' ' || c == '\t' || c == '\n' || c == '\x0d' ||
  c == Char.ofNat 0x0b || c == Char.ofNat 0x0c

/-- Python `s.lstrip()`: drop leading whitespace. -/
def lstripPy (s : PyStr) : PyStr := s.dropWhile isPySpace

/-- Python `s.strip()`: drop leading and trailing whitespace. -/
def pyStrip (s : PyStr) : PyStr :=
  ((lstripPy s).reverse.dropWhile isPySpace).reverse

/-- Boolean prefix test on character lists. -/
def startsWithL : PyStr → PyStr → Bool
  | [], _ => true
  | _ :: _, [] => false
  | a :: as, b :: bs => a == b && startsWithL as bs

/-- Python substring containment `needle in hay`.  Note that the empty string
is a substring of every string, as in Python. -/
def isSubstr (needle : PyStr) : PyStr → Bool
  | [] => startsWithL needle []
  | c :: t => startsWithL needle (c :: t) || isSubstr needle t

/-- Worker for Python `hay.replace(needle, "")`: when `skip` is positive,
that many characters of an already-matched occurrence remain to be deleted;
at `skip = 0` the scan looks for the next occurrence. -/
def replaceGo (needle : PyStr) : Nat → PyStr → PyStr
  | _, [] => []
  | k + 1, _ :: t => replaceGo needle k t
  | 0, c :: t =>
    if needle ≠ [] ∧ startsWithL needle (c :: t) = true then
      replaceGo needle (needle.length - 1) t
    else
      c :: replaceGo needle 0 t

/-- Python `hay.replace(needle, "")`: remove every non-overlapping occurrence
of `needle`, scanning left to right. -/
def replaceDrop (needle : PyStr) (s : PyStr) : PyStr := replaceGo needle 0 s

/-- Line-boundary characters of Python `str.splitlines` other than `\r`
(a `\r\n` pair is first collapsed to a single `\n` by `normNewlines`, so that
it counts as one boundary; a lone `\r` is then also a boundary). -/
def isLineBoundary (c : Char) : Bool :=
  c == '\n' || c == '\x0d' || c == Char.ofNat 0x0b || c == Char.ofNat 0x0c ||
  c == Char.ofNat 0x1c || c == Char.ofNat 0x1d || c == Char.ofNat 0x1e ||
  c == Char.ofNat 0x85 || c == Char.ofNat 0x2028 || c == Char.ofNat 0x2029

/-- Collapse each `\r\n` pair to `\n`, so that it splits as one boundary. -/
def normNewlines : PyStr → PyStr
  | [] => []
  | '\x0d' :: '\n' :: t => '\n' :: normNewlines t
  | c :: t => c :: normNewlines t

/-- Worker for `splitlines`: `acc` holds the current line, reversed; a
boundary at the very end of the string produces no trailing empty line. -/
def splitBnd : PyStr → PyStr → List PyStr
  | [], acc => [acc.reverse]
  | c :: rest, acc =>
    if isLineBoundary c then
      acc.reverse :: (if rest.isEmpty then [] else splitBnd rest [])
    else
      splitBnd rest (c :: acc)

/-- Python `str.splitlines()`. -/
def splitlines (s : PyStr) : List PyStr :=
  if s.isEmpty then [] else splitBnd (normNewlines s) []

/-- Python `str.lower()` (ASCII case folding). -/
def lowerStr (s : PyStr) : PyStr := s.map Char.toLower

/-! ## The HTML soup model -/

/-- A parsed HTML node: either a text node or an element with a tag name, an
attribute list and children.  This is the tree BeautifulSoup produces. -/
inductive Node where
  | text (s : PyStr)
  | elem (tag : PyStr) (attrs : List (PyStr × PyStr)) (children : List Node)

/-- First value bound to attribute `k`, if present. -/
def getAttr (attrs : List (PyStr × PyStr)) (k : PyStr) : Option PyStr :=
  (attrs.find? (fun p => p.1 == k)).map (fun p => p.2)

/-- The literal "href". -/
def hrefLit : PyStr := pys "href"

/-- The literal "mailto:". -/
def mailtoLit : PyStr := pys "mailto:"

/-- Python `mailto.get("href", "")`: the href attribute of an element,
defaulting to the empty string. -/
def nodeHref : Node → PyStr
  | Node.text _ => []
  | Node.elem _ attrs _ => (getAttr attrs hrefLit).getD []

/-- Whether a node matches the CSS selector `a[href^="mailto:"]`. -/
def isMailtoAnchor : Node → Bool
  | Node.text _ => false
  | Node.elem tag attrs _ =>
    tag == pys "a" &&
    (match getAttr attrs hrefLit with
     | some v => startsWithL mailtoLit v
     | none => false)

mutual
/-- All strings of text-node descendants, in document order
(BeautifulSoup `_all_strings`). -/
def texts : Node → List PyStr
  | Node.text s => [s]
  | Node.elem _ _ cs => textsList cs
/-- Text strings of a forest of nodes, in order. -/
def textsList : List Node → List PyStr
  | [] => []
  | c :: cs => texts c ++ textsList cs
end

/-- BeautifulSoup `get_text(" \n", strip=True)`: strip each descendant string,
skip the all-whitespace ones, join the rest with the separator. -/
def getTextSepStrip (n : Node) : PyStr :=
  List.intercalate (pys " \n") (((texts n).map pyStrip).filter (fun t => !t.isEmpty))

mutual
/-- All elements matching `a[href^="mailto:"]` in document (pre-)order, each
paired with its list of ancestors, nearest first (`soup.select`, with the
ancestor chain recorded so that `find_parent` can be evaluated). -/
def collectMailtos : Node → List Node → List (Node × List Node)
  | Node.text _, _ => []
  | Node.elem tag attrs cs, anc =>
    (if isMailtoAnchor (Node.elem tag attrs cs) then
      [(Node.elem tag attrs cs, anc)]
     else []) ++ collectMailtosList cs (Node.elem tag attrs cs :: anc)
/-- `collectMailtos` over a forest, sharing one ancestor chain. -/
def collectMailtosList : List Node → List Node → List (Node × List Node)
  | [], _ => []
  | c :: cs, anc => collectMailtos c anc ++ collectMailtosList cs anc
end

/-- Whether an element can be returned by `find_parent(["div", "li", "tr"])`. -/
def isBlockTag : Node → Bool
  | Node.text _ => false
  | Node.elem tag _ _ => tag == pys "div" || tag == pys "li" || tag == pys "tr"

/-- Python `mailto.find_parent(["div", "li", "tr"]) or mailto.parent`: the
nearest ancestor that is a div/li/tr, else the direct parent.  For anchors
found under a document root the ancestor list is never empty, so the final
default (the anchor itself) is unreachable. -/
def findBlock (anchor : Node) (anc : List Node) : Node :=
  match anc.find? isBlockTag with
  | some b => b
  | none => anc.headD anchor

/-! ## The phone regex

`re.search(r"(\(?\d{3}\)?[-.\s]?\d{3}[-.\s]?\d{4})", text)`, implemented with
Python backtracking semantics: leftmost start position wins, each `?` is
greedy and backtracks on failure of the rest of the pattern. -/

/-- Characters of the regex class `[-.\s]`. -/
def isSepChar (c : Char) : Bool := c == '-' || c == '.' || isPySpace c

/-- Greedy optional single-character item: try consuming, fall back to not
consuming when the continuation fails. -/
def optThen (p : Char → Bool) (s : PyStr) (k : PyStr → Option PyStr) : Option PyStr :=
  match s with
  | [] => k []
  | c :: rest =>
    if p c then
      match k rest with
      | some m => some (c :: m)
      | none => k (c :: rest)
    else k (c :: rest)

/-- Mandatory `\d{n}` item: consume exactly `n` digits, then continue. -/
def digitsThen : Nat → PyStr → (PyStr → Option PyStr) → Option PyStr
  | 0, s, k => k s
  | _ + 1, [], _ => none
  | n + 1, c :: rest, k =>
    if c.isDigit then (digitsThen n rest k).map (fun m => c :: m) else none

/-- Attempt to match the phone pattern anchored at the start of `s`, returning
the matched substring. -/
def phoneMatchAt (s : PyStr) : Option PyStr :=
  optThen (fun c => c == '(') s (fun s1 =>
  digitsThen 3 s1 (fun s2 =>
  optThen (fun c => c == ')') s2 (fun s3 =>
  optThen isSepChar s3 (fun s4 =>
  digitsThen 3 s4 (fun s5 =>
  optThen isSepChar s5 (fun s6 =>
  digitsThen 4 s6 (fun _ => some [])))))))

/-- Python `re.search` for the phone pattern: first start position (leftmost)
at which the pattern matches. -/
def phoneSearch : PyStr → Option PyStr
  | [] => none
  | c :: t =>
    match phoneMatchAt (c :: t) with
    | some m => some m
    | none => phoneSearch t

/-- Python `phone_match.group(1) if phone_match else ""`. -/
def phoneOf (text : PyStr) : PyStr :=
  match phoneSearch text with
  | some m => m
  | none => []

/-! ## The entry parser (`parse_entries`) -/

/-- One parsed contact record. -/
structure Entry where
  Name : PyStr
  Brokerage : PyStr
  Email : PyStr
  Phone : PyStr
deriving DecidableEq, Repr

/-- Python `mailto.get("href", "").replace("mailto:", "").strip()`. -/
def emailOf (anchor : Node) : PyStr :=
  pyStrip (replaceDrop mailtoLit (nodeHref anchor))

/-- The line filter
`[t for t in text.splitlines() if t and email not in t and phone not in t]`. -/
def lineFilter (email phone : PyStr) (text : PyStr) : List PyStr :=
  (splitlines text).filter
    (fun t => !t.isEmpty && !(isSubstr email t) && !(isSubstr phone t))

/-- Build the entry for one anchor from its email and its block text:
phone by regex search, the remaining lines give Name and Brokerage. -/
def buildEntry (email text : PyStr) : Entry :=
  { Name := (lineFilter email (phoneOf text) text).headD []
    Brokerage := ((lineFilter email (phoneOf text) text).drop 1).headD []
    Email := email
    Phone := phoneOf text }

/-- The loop body of `parse_entries` for one discovered mailto anchor:
`none` when the cleaned email is empty (the `continue` branch). -/
def parseAnchor (anchor : Node) (anc : List Node) : Option Entry :=
  if emailOf anchor = [] then none
  else some (buildEntry (emailOf anchor) (getTextSepStrip (findBlock anchor anc)))

/-- The synthetic document node BeautifulSoup wraps a parsed fragment in. -/
def docRoot (doc : List Node) : Node :=
  Node.elem (pys "[document]") [] doc

/-- `parse_entries(html)`: one entry per mailto anchor with a non-empty
address, in document order. -/
def parse_entries (doc : List Node) : List Entry :=
  (collectMailtos (docRoot doc) []).filterMap (fun pr => parseAnchor pr.1 pr.2)

/-! ## The deduplicator (`deduplicate`) -/

/-- Python `r.get("Email", "").lower()` — the uniqueness key. -/
def dedupKey (r : Entry) : PyStr := lowerStr r.Email

/-- The loop of `deduplicate`, with the `seen` set carried explicitly. -/
def dedupGo (seen : List PyStr) : List Entry → List Entry
  | [] => []
  | r :: rest =>
    if dedupKey r ≠ [] ∧ dedupKey r ∉ seen then
      r :: dedupGo (dedupKey r :: seen) rest
    else
      dedupGo seen rest

/-- `deduplicate(rows)`: keep the first entry for each distinct non-empty
lowercased email, in order. -/
def deduplicate (rows : List Entry) : List Entry := dedupGo [] rows

/-! ## The sheet uploader (`append_to_sheet`), as a trace model

The external calls the function makes are recorded as a list of effects in
program order; raising is modelled by the error component, and an error means
the remaining effects are not performed. -/

/-- The spreadsheet document id (module constant `SHEET_ID`). -/
def SHEET_ID : PyStr := pys "1-kGNDW07iQ7WarkpHmhPCgI6wEHFyFbf6-VqnIEiYQs"

/-- The spreadsheet tab name (module constant `SHEET_TAB`). -/
def SHEET_TAB : PyStr := pys "Mortgage Agent List"

/-- External calls made by `append_to_sheet`, in order.  All but
`loadCredentials` (a local file read) are network calls to the spreadsheet
service. -/
inductive SheetEffect where
  | loadCredentials (path : PyStr)
  | authorize
  | openSpreadsheet (id : PyStr)
  | openWorksheet (tab : PyStr)
  | appendRows (data : List (List PyStr))
deriving DecidableEq, Repr

/-- The error raised when `GOOGLE_CREDS_JSON` is absent, empty, or names a
file that does not exist (the spec calls it ConfigError). -/
inductive SheetError where
  | configError
deriving DecidableEq, Repr

/-- The process environment as `append_to_sheet` sees it: the optional
`GOOGLE_CREDS_JSON` variable and which paths exist on disk. -/
structure Env where
  googleCredsJson : Option PyStr
  fileExists : PyStr → Bool

/-- Python `not creds_path or not Path(creds_path).exists()`. -/
def credsMissing (env : Env) : Bool :=
  match env.googleCredsJson with
  | none => true
  | some p => p.isEmpty || !env.fileExists p

/-- `append_to_sheet(rows)`: check credentials, authenticate, open the fixed
spreadsheet and tab, and append the rows as [Name, Brokerage, Email, Phone];
the append call itself is skipped when `data` is empty (`if data:`). -/
def append_to_sheet (env : Env) (rows : List Entry) :
    List SheetEffect × Option SheetError :=
  match env.googleCredsJson with
  | none => ([], some SheetError.configError)
  | some p =>
    if p.isEmpty || !env.fileExists p then
      ([], some SheetError.configError)
    else
      ([SheetEffect.loadCredentials p, SheetEffect.authorize,
        SheetEffect.openSpreadsheet SHEET_ID, SheetEffect.openWorksheet SHEET_TAB] ++
        (match rows.map (fun r => [r.Name, r.Brokerage, r.Email, r.Phone]) with
         | [] => []
         | d :: ds => [SheetEffect.appendRows (d :: ds)]),
       none)

/-- Whether an effect is the append call. -/
def isAppendRows : SheetEffect → Bool
  | SheetEffect.appendRows _ => true
  | _ => false

/-! ## The rendered fetcher (`fetch_with_playwright`), as a trace model

The body runs inside `with sync_playwright() as p:`; leaving the `with` block
— normally or through an exception — stops the Playwright driver, which
terminates every browser it launched.  That teardown is the `stopPlaywright`
event; `closeBrowser` is the explicit `browser.close()` call on the success
path. -/

/-- Events of one `fetch_with_playwright` call, in order. -/
inductive PwEvent where
  | launchBrowser
  | newPage
  | goto
  | getContent
  | closeBrowser
  | stopPlaywright
deriving DecidableEq, Repr

/-- Which call inside the `with` block raises, if any. -/
inductive PwFail where
  | noFail
  | launchFail
  | newPageFail
  | gotoFail
  | contentFail
deriving DecidableEq, Repr

/-- `fetch_with_playwright(url, headless)` as a trace: the events performed
and whether the call returned normally.  On every exception path the `with`
block still emits `stopPlaywright` before the error propagates. -/
def fetch_with_playwright (f : PwFail) : List PwEvent × Bool :=
  match f with
  | PwFail.noFail =>
    ([PwEvent.launchBrowser, PwEvent.newPage, PwEvent.goto, PwEvent.getContent,
      PwEvent.closeBrowser, PwEvent.stopPlaywright], true)
  | PwFail.launchFail => ([PwEvent.stopPlaywright], false)
  | PwFail.newPageFail => ([PwEvent.launchBrowser, PwEvent.stopPlaywright], false)
  | PwFail.gotoFail =>
    ([PwEvent.launchBrowser, PwEvent.newPage, PwEvent.stopPlaywright], false)
  | PwFail.contentFail =>
    ([PwEvent.launchBrowser, PwEvent.newPage, PwEvent.goto,
      PwEvent.stopPlaywright], false)

/-- Number of live browser sessions after replaying a trace: `launchBrowser`
opens one, `browser.close()` closes one, stopping the Playwright driver
closes every browser it launched. -/
def openSessions (n : Nat) : List PwEvent → Nat
  | [] => n
  | PwEvent.launchBrowser :: t => openSessions (n + 1) t
  | PwEvent.closeBrowser :: t => openSessions (n - 1) t
  | PwEvent.stopPlaywright :: t => openSessions 0 t
  | _ :: t => openSessions n t

/-! ## The orchestrator (`main`), as a trace model

`main` is modelled after credential loading and CLI parsing, parameterized by
the two documents the two fetchers would return. -/

/-- The pipeline stages `main` runs, in order. -/
inductive MainStep where
  | fetchStatic
  | fetchRendered
  | dedupe
  | upload
deriving DecidableEq, Repr

/-- The fetch-and-parse portion of `main`: static fetch and parse, then the
rendered fetch and re-parse exactly when the first parse found nothing
(`if not entries:`), then dedupe and upload. -/
def main_run (staticDoc renderedDoc : List Node) : List MainStep × List Entry :=
  (MainStep.fetchStatic ::
     (if parse_entries staticDoc = [] then [MainStep.fetchRendered] else []) ++
     [MainStep.dedupe, MainStep.upload],
   deduplicate
     (if parse_entries staticDoc = [] then parse_entries renderedDoc
      else parse_entries staticDoc))

/-! ## Helper lemmas -/

/-- The empty string is a substring of every string (Python `"" in t`). -/
theorem isSubstr_nil (t : PyStr) : isSubstr [] t = true := by
  cases t <;> simp [isSubstr, startsWithL]

/-- When the phone string is empty, the line filter removes every line,
because every line contains the empty string. -/
theorem lineFilter_phone_nil (email text : PyStr) : lineFilter email [] text = [] := by
  unfold lineFilter
  apply List.filter_eq_nil_iff.mpr
  intro t _
  simp [isSubstr_nil]

/-- A list is a prefix of itself followed by anything. -/
theorem startsWithL_append_self (xs ys : PyStr) : startsWithL xs (xs ++ ys) = true := by
  induction xs with
  | nil => simp [startsWithL]
  | cons a as ih => simp [startsWithL]; exact ih

/-- `replace` leaves a string with no occurrence of the needle unchanged. -/
theorem replaceDrop_no_occurrence (needle s : PyStr)
    (h : isSubstr needle s = false) : replaceDrop needle s = s := by
  unfold replaceDrop
  induction s with
  | nil => rfl
  | cons c t ih =>
    rw [isSubstr] at h
    simp only [Bool.or_eq_false_iff] at h
    rw [replaceGo]
    rw [if_neg (by simp [h.1])]
    rw [ih h.2]

/-- A positive skip counter deletes exactly that many characters before the
scan resumes. -/
theorem replaceGo_skip (needle xs t : PyStr) :
    replaceGo needle xs.length (xs ++ t) = replaceGo needle 0 t := by
  induction xs with
  | nil => rfl
  | cons x xs ih => simpa [replaceGo] using ih

/-- `replace` consumes a leading occurrence of the needle and continues after
it. -/
theorem replaceDrop_cons_self (needle rest : PyStr) (h : needle ≠ []) :
    replaceDrop needle (needle ++ rest) = replaceDrop needle rest := by
  match needle, h with
  | n0 :: ntail, _ =>
    unfold replaceDrop
    rw [show (n0 :: ntail) ++ rest = n0 :: (ntail ++ rest) from rfl]
    rw [replaceGo]
    rw [if_pos ⟨by simp, startsWithL_append_self (n0 :: ntail) rest⟩]
    rw [show (n0 :: ntail).length - 1 = ntail.length by simp]
    exact replaceGo_skip (n0 :: ntail) ntail rest

/-! ## Claim C1 -/

/-- The markup of end-to-end scenario A, as parsed by the HTML parser:
one list item containing the mailto anchor and a single following text node. -/
def c1Doc : List Node :=
  [Node.elem (pys "li") []
    [Node.elem (pys "a") [(pys "href", pys "mailto:jane@ex.com")]
      [Node.text (pys "jane@ex.com")],
     Node.text (pys " Jane Doe ABC Realty (705) 555-1234")]]

/-- C1, counterexample: on the scenario-A markup the parser does NOT return
the entry with Name "Jane Doe" and Brokerage "ABC Realty" claimed by the
spec: the name and brokerage text sit on the same extracted line as the
matched phone string, and that line is removed. -/
theorem c1_counterexample :
    parse_entries c1Doc ≠
      [{ Name := pys "Jane Doe", Brokerage := pys "ABC Realty",
         Email := pys "jane@ex.com", Phone := pys "(705) 555-1234" }] := by
  decide

/-- C1, amended: on the scenario-A markup the parser returns exactly one
entry with Email "jane@ex.com" and Phone "(705) 555-1234", and with empty
Name and Brokerage (both lines of the block text contain the email or the
matched phone string, so both are removed). -/
theorem c1_parse_result :
    parse_entries c1Doc =
      [{ Name := [], Brokerage := [],
         Email := pys "jane@ex.com", Phone := pys "(705) 555-1234" }] := by
  decide

/-! ## Claim C2 -/

/-- A block with an email, a name line and a brokerage line but no phone-like
substring anywhere. -/
def c2Doc : List Node :=
  [Node.elem (pys "li") []
    [Node.elem (pys "a") [(pys "href", pys "mailto:a@b.com")]
      [Node.text (pys "a@b.com")],
     Node.elem (pys "p") [] [Node.text (pys "Jane Doe")],
     Node.elem (pys "p") [] [Node.text (pys "ABC Realty")]]]

/-- C2, evaluation of the code at the failing input: with no phone pattern in
the block, the computed phone is the empty string, the filter
`phone not in t` is false for every line (Python treats the empty string as a
substring of every string), so every line is removed and Name and Brokerage
come out empty instead of "Jane Doe" and "ABC Realty". -/
theorem c2_code_eval :
    parse_entries c2Doc =
      [{ Name := [], Brokerage := [], Email := pys "a@b.com", Phone := [] }] := by
  decide

/-! ## Claim C10 -/

/-- C10: every parsed entry with an empty Phone also has empty Name and
Brokerage — when no phone matched, the empty phone string is contained in
every line, so the line filter removes all lines. -/
theorem c10_empty_phone_empty_name (doc : List Node) (e : Entry)
    (h1 : e ∈ parse_entries doc) (h2 : e.Phone = []) :
    e.Name = [] ∧ e.Brokerage = [] := by
  unfold parse_entries at h1
  rw [List.mem_filterMap] at h1
  obtain ⟨pr, _, hpr⟩ := h1
  unfold parseAnchor at hpr
  split at hpr
  · exact absurd hpr (by simp)
  · rw [Option.some_inj] at hpr
    subst hpr
    unfold buildEntry at h2 ⊢
    simp only at h2 ⊢
    rw [h2, lineFilter_phone_nil]
    exact ⟨rfl, rfl⟩

/-- A document whose one entry has no phone, used to instantiate C10. -/
def c10Doc : List Node :=
  [Node.elem (pys "li") []
    [Node.elem (pys "a") [(pys "href", pys "mailto:x@y.com")]
      [Node.text (pys "x@y.com")],
     Node.elem (pys "p") [] [Node.text (pys "Jane Roe")]]]

/-- C10, witness: the phoneless entry parsed from `c10Doc` has empty Phone,
and the theorem yields its empty Name and Brokerage. -/
theorem c10_witness :
    ({ Name := [], Brokerage := [], Email := pys "x@y.com", Phone := [] } : Entry)
        ∈ parse_entries c10Doc ∧
      ({ Name := [], Brokerage := [], Email := pys "x@y.com", Phone := [] } : Entry).Name = [] ∧
      ({ Name := [], Brokerage := [], Email := pys "x@y.com", Phone := [] } : Entry).Brokerage = [] :=
  ⟨by decide, c10_empty_phone_empty_name c10Doc _ (by decide) rfl⟩

/-! ## Deduplicator lemmas -/

/-- The entries `dedupGo` keeps form a sublist of its input. -/
theorem dedupGo_sublist (rows : List Entry) :
    ∀ seen, List.Sublist (dedupGo seen rows) rows := by
  induction rows with
  | nil => intro seen; simp [dedupGo]
  | cons r rest ih =>
    intro seen
    rw [dedupGo]
    split
    · exact List.Sublist.cons₂ r (ih (dedupKey r :: seen))
    · exact List.Sublist.cons r (ih seen)

/-- Every entry `dedupGo` keeps comes from the input, has a non-empty key,
and its key was not in the initial seen set. -/
theorem mem_dedupGo (rows : List Entry) :
    ∀ seen e, e ∈ dedupGo seen rows →
      e ∈ rows ∧ dedupKey e ≠ [] ∧ dedupKey e ∉ seen := by
  induction rows with
  | nil => intro seen e h; simp [dedupGo] at h
  | cons r rest ih =>
    intro seen e h
    rw [dedupGo] at h
    split at h
    · rename_i hc
      rcases List.mem_cons.mp h with he | he
      · subst he
        exact ⟨List.mem_cons_self _ _, hc.1, hc.2⟩
      · obtain ⟨h1, h2, h3⟩ := ih (dedupKey r :: seen) e he
        exact ⟨List.mem_cons_of_mem r h1, h2, fun hs => h3 (List.mem_cons_of_mem _ hs)⟩
    · obtain ⟨h1, h2, h3⟩ := ih seen e h
      exact ⟨List.mem_cons_of_mem r h1, h2, h3⟩

/-- The entries `dedupGo` keeps have pairwise distinct keys. -/
theorem dedupGo_pairwise (rows : List Entry) :
    ∀ seen, (dedupGo seen rows).Pairwise (fun a b => dedupKey a ≠ dedupKey b) := by
  induction rows with
  | nil => intro seen; simp [dedupGo]
  | cons r rest ih =>
    intro seen
    rw [dedupGo]
    split
    · refine List.Pairwise.cons ?_ (ih (dedupKey r :: seen))
      intro b hb hkey
      exact (mem_dedupGo rest (dedupKey r :: seen) b hb).2.2 (hkey ▸ List.mem_cons_self _ _)
    · exact ih seen

/-- Every input entry with a valid unseen key is represented in the output. -/
theorem dedupGo_covers (rows : List Entry) :
    ∀ seen r, r ∈ rows → dedupKey r ≠ [] → dedupKey r ∉ seen →
      ∃ e ∈ dedupGo seen rows, dedupKey e = dedupKey r := by
  induction rows with
  | nil => intro seen r h; simp at h
  | cons x rest ih =>
    intro seen r hr hk hs
    rw [dedupGo]
    split
    · rename_i hc
      by_cases hkey : dedupKey x = dedupKey r
      · exact ⟨x, List.mem_cons_self _ _, hkey⟩
      · rcases List.mem_cons.mp hr with he | he
        · exact absurd (he ▸ rfl) hkey
        · obtain ⟨e, h1, h2⟩ :=
            ih (dedupKey x :: seen) r he hk
              (by simp only [List.mem_cons]; rintro (h | h)
                  · exact hkey h.symm
                  · exact hs h)
          exact ⟨e, List.mem_cons_of_mem x h1, h2⟩
    · rename_i hc
      rcases List.mem_cons.mp hr with he | he
      · subst he
        exact absurd ⟨hk, hs⟩ hc
      · exact ih seen r he hk hs

/-- Each kept entry is the first input entry carrying its key. -/
theorem dedupGo_first (rows : List Entry) :
    ∀ seen e, e ∈ dedupGo seen rows →
      rows.find? (fun r => dedupKey r == dedupKey e) = some e := by
  induction rows with
  | nil => intro seen e h; simp [dedupGo] at h
  | cons x rest ih =>
    intro seen e h
    rw [dedupGo] at h
    split at h
    · rename_i hc
      rcases List.mem_cons.mp h with he | he
      · subst he
        exact List.find?_cons_of_pos rest (by simp)
      · have hne : dedupKey x ≠ dedupKey e := by
          intro hkey
          exact (mem_dedupGo rest (dedupKey x :: seen) e he).2.2
            (hkey ▸ List.mem_cons_self _ _)
        rw [List.find?_cons_of_neg rest (by simpa using hne)]
        exact ih (dedupKey x :: seen) e he
    · rename_i hc
      have hmem := mem_dedupGo rest seen e h
      have hne : dedupKey x ≠ dedupKey e := by
        intro hkey
        rcases not_and_or.mp hc with hx | hx
        · exact hmem.2.1 (hkey ▸ not_ne_iff.mp hx)
        · exact hmem.2.2 (hkey ▸ not_not.mp hx)
      rw [List.find?_cons_of_neg rest (by simpa using hne)]
      exact ih seen e h

/-- A list whose keys are valid, mutually distinct and disjoint from the seen
set passes through `dedupGo` unchanged. -/
theorem dedupGo_fixed (l : List Entry)
    (hvalid : ∀ e ∈ l, dedupKey e ≠ [])
    (hpw : l.Pairwise (fun a b => dedupKey a ≠ dedupKey b)) :
    ∀ seen, (∀ e ∈ l, dedupKey e ∉ seen) → dedupGo seen l = l := by
  induction l with
  | nil => intro seen _; rfl
  | cons x rest ih =>
    intro seen hseen
    rw [dedupGo]
    rw [if_pos ⟨hvalid x (List.mem_cons_self _ _), hseen x (List.mem_cons_self _ _)⟩]
    congr 1
    refine ih (fun e he => hvalid e (List.mem_cons_of_mem x he))
      (List.Pairwise.of_cons hpw) (dedupKey x :: seen) ?_
    intro e he
    simp only [List.mem_cons]
    rintro (h | h)
    · exact (List.pairwise_cons.mp hpw).1 e he h.symm
    · exact hseen e (List.mem_cons_of_mem x he) h

/-! ## Claim C5 -/

/-- C5: `deduplicate` keeps a sublist of its input (relative order is
preserved), output keys (lowercased emails) are pairwise distinct, every kept
entry has a non-empty email, every input entry with a non-empty email is
represented by exactly one kept entry with the same key, and each kept entry
is the first input entry in scan order with its key.  Entries with empty
emails are dropped. -/
theorem c5_dedup_spec (rows : List Entry) :
    List.Sublist (deduplicate rows) rows ∧
    (deduplicate rows).Pairwise (fun a b => dedupKey a ≠ dedupKey b) ∧
    (∀ e ∈ deduplicate rows, e.Email ≠ []) ∧
    (∀ r ∈ rows, r.Email ≠ [] → ∃ e ∈ deduplicate rows, dedupKey e = dedupKey r) ∧
    (∀ e ∈ deduplicate rows, rows.find? (fun r => dedupKey r == dedupKey e) = some e) := by
  refine ⟨dedupGo_sublist rows [], dedupGo_pairwise rows [], ?_, ?_, ?_⟩
  · intro e he
    have h := (mem_dedupGo rows [] e he).2.1
    intro hmail
    exact h (by simp [dedupKey, lowerStr, hmail])
  · intro r hr hmail
    exact dedupGo_covers rows [] r hr
      (by simp [dedupKey, lowerStr]; exact hmail) (by simp)
  · intro e he
    exact dedupGo_first rows [] e he

/-- C5, witness: on a two-entry list whose emails differ only in case, the
second entry (non-empty email) is represented in the output by an entry with
the same key. -/
theorem c5_witness :
    ∃ e ∈ deduplicate
        [{ Name := pys "A", Brokerage := [], Email := pys "X@a.com", Phone := [] },
         { Name := pys "B", Brokerage := [], Email := pys "x@A.com", Phone := [] }],
      dedupKey e =
        dedupKey { Name := pys "B", Brokerage := [], Email := pys "x@A.com", Phone := [] } :=
  (c5_dedup_spec
    [{ Name := pys "A", Brokerage := [], Email := pys "X@a.com", Phone := [] },
     { Name := pys "B", Brokerage := [], Email := pys "x@A.com", Phone := [] }]).2.2.2.1
    { Name := pys "B", Brokerage := [], Email := pys "x@A.com", Phone := [] }
    (by decide) (by decide)

/-! ## Claim C6 -/

/-- C6: the deduplicator never lengthens its input, and it is idempotent. -/
theorem c6_dedup_length_idem (x : List Entry) :
    (deduplicate x).length ≤ x.length ∧ deduplicate (deduplicate x) = deduplicate x := by
  constructor
  · exact (dedupGo_sublist x []).length_le
  · unfold deduplicate
    exact dedupGo_fixed (dedupGo [] x)
      (fun e he => (mem_dedupGo x [] e he).2.1)
      (dedupGo_pairwise x [])
      [] (by simp)

/-! ## Claim C3 -/

/-- An environment with a valid credential configuration. -/
def env3 : Env := { googleCredsJson := some (pys "creds.json"), fileExists := fun _ => true }

/-- C3, counterexample: with valid credentials and an empty row list, the
uploader is NOT a no-op — it still loads credentials, authenticates, and
opens the spreadsheet and worksheet; only the append call is skipped. -/
theorem c3_counterexample :
    (append_to_sheet env3 []).1 ≠ [] ∧
      SheetEffect.authorize ∈ (append_to_sheet env3 []).1 ∧
      SheetEffect.openSpreadsheet SHEET_ID ∈ (append_to_sheet env3 []).1 := by
  decide

/-- C3, amended: on an empty input sequence the uploader never performs the
append call, but whenever the credential configuration is valid it still
authenticates (and opens the spreadsheet) before discovering there is nothing
to append. -/
theorem c3_empty_input_skips_append (env : Env) :
    ((append_to_sheet env []).1.all (fun e => !(isAppendRows e)) = true) ∧
      (credsMissing env = false → SheetEffect.authorize ∈ (append_to_sheet env []).1) := by
  obtain ⟨creds, fe⟩ := env
  cases creds with
  | none => exact ⟨rfl, fun h => by cases h⟩
  | some p =>
    by_cases hp : (p.isEmpty || !fe p) = true
    · constructor
      · simp [append_to_sheet, hp]
      · intro h
        rw [show credsMissing ⟨some p, fe⟩ = (p.isEmpty || !fe p) from rfl, hp] at h
        cases h
    · constructor
      · simp [append_to_sheet, hp, isAppendRows]
      · intro _
        simp [append_to_sheet, hp]

/-- C3, witness: in the valid-credential environment with empty input, no
append effect appears in the trace while the authentication call does. -/
theorem c3_witness :
    ((append_to_sheet env3 []).1.all (fun e => !(isAppendRows e)) = true) ∧
      SheetEffect.authorize ∈ (append_to_sheet env3 []).1 :=
  ⟨(c3_empty_input_skips_append env3).1, (c3_empty_input_skips_append env3).2 rfl⟩

/-! ## Claim C4 -/

/-- C4: on every run, the rendered fetch is performed exactly once when the
static parse yields zero entries, and never when it yields one or more. -/
theorem c4_fallback_trigger (s r : List Node) :
    (main_run s r).1.count MainStep.fetchRendered =
      if parse_entries s = [] then 1 else 0 := by
  by_cases h : parse_entries s = [] <;>
    simp [main_run, h, List.count_cons]

/-! ## Claim C7 -/

/-- C7: for any mailto anchor discovered by the parser whose href is
`mailto:` followed by an address (no stray "mailto:" inside it, no
surrounding whitespace), an empty address produces no entry and a non-empty
address produces an entry whose Email equals that address. -/
theorem c7_email_matches_href (doc : List Node) (anchor : Node) (anc : List Node)
    (addr : PyStr)
    (_hmem : (anchor, anc) ∈ collectMailtos (docRoot doc) [])
    (h1 : nodeHref anchor = mailtoLit ++ addr)
    (h2 : isSubstr mailtoLit addr = false)
    (h3 : pyStrip addr = addr) :
    (addr = [] → parseAnchor anchor anc = none) ∧
    (addr ≠ [] → ∃ e, parseAnchor anchor anc = some e ∧ e.Email = addr) := by
  have hemail : emailOf anchor = addr := by
    unfold emailOf
    rw [h1, replaceDrop_cons_self mailtoLit addr (by decide),
        replaceDrop_no_occurrence mailtoLit addr h2, h3]
  constructor
  · intro ha
    unfold parseAnchor
    rw [hemail, if_pos ha]
  · intro ha
    unfold parseAnchor
    rw [hemail, if_neg ha]
    exact ⟨_, rfl, rfl⟩

/-- The anchor node used to instantiate C7. -/
def a7 : Node :=
  Node.elem (pys "a") [(pys "href", pys "mailto:bob@x.com")] [Node.text (pys "bob@x.com")]

/-- The list item containing `a7`. -/
def li7 : Node := Node.elem (pys "li") [] [a7]

/-- The document used to instantiate C7. -/
def doc7 : List Node := [li7]

/-- C7, witness: the anchor of `doc7` has href `mailto:bob@x.com` and yields
an entry whose Email is exactly "bob@x.com". -/
theorem c7_witness :
    ∃ e, parseAnchor a7 [li7, docRoot doc7] = some e ∧ e.Email = pys "bob@x.com" :=
  (c7_email_matches_href doc7 a7 [li7, docRoot doc7] (pys "bob@x.com")
    (by
      rw [show collectMailtos (docRoot doc7) [] = [(a7, [li7, docRoot doc7])] from rfl]
      exact List.mem_singleton.mpr rfl)
    rfl (by decide) (by decide)).2 (by decide)

/-! ## Claim C8 -/

/-- C8: whenever the credential path is missing, empty, or names a
non-existent file, the uploader fails with the config error and its trace is
empty — no call to the spreadsheet service is attempted. -/
theorem c8_config_error_before_network (env : Env) (rows : List Entry)
    (h : credsMissing env = true) :
    append_to_sheet env rows = ([], some SheetError.configError) := by
  obtain ⟨creds, fe⟩ := env
  cases creds with
  | none => rfl
  | some p =>
    rw [show credsMissing ⟨some p, fe⟩ = (p.isEmpty || !fe p) from rfl] at h
    simp only [append_to_sheet]
    rw [if_pos h]

/-- The environment with no credential variable set, used to instantiate C8. -/
def env8 : Env := { googleCredsJson := none, fileExists := fun _ => false }

/-- C8, witness: with `GOOGLE_CREDS_JSON` unset the uploader produces the
config error and an empty effect trace. -/
theorem c8_witness : append_to_sheet env8 [] = ([], some SheetError.configError) :=
  c8_config_error_before_network env8 [] rfl

/-! ## Claim C9 -/

/-- C9: on every exit path of the rendered fetcher — normal return, and
failure of the launch, page-creation, navigation or content call — the number
of live browser sessions when the function returns or the error propagates is
zero: the session is always released. -/
theorem c9_browser_released (f : PwFail) :
    openSessions 0 (fetch_with_playwright f).1 = 0 := by
  cases f <;> rfl

end Sreb
